import Mathlib

/-!
Verification of the key-resolution logic of `muon/_atac/plot.py`
(the `_average_peaks` function and its contract towards the plot
dispatchers).  The annotated matrix (AnnData) is embedded shallowly:
the observation axis, the `obs` column names, the feature axis with the
numeric matrix (one list of rationals per observation), the optional raw
shadow matrix, and the optional peak-annotation table from
`uns["atac"]["peak_annotation"]`.  Column assignment on the derived
table `x` follows pandas DataFrame semantics (overwrite if the column
name exists, append otherwise); warnings are collected in a list; the
two raising conditions are modelled by `Except`.
-/

deriving instance DecidableEq for Except

namespace Muon

/-- One row of `uns["atac"]["peak_annotation"]`: the table is indexed by
gene name (non-unique), with columns `peak` and `peak_type`. -/
structure Annot where
  gene : String
  peak : String
  ptype : String
deriving DecidableEq

/-- The raw shadow matrix `adata.raw`: its own feature axis and values,
sharing the observation axis with the main matrix. -/
structure RawData where
  vnames : List String
  mat : List (List Rat)
deriving DecidableEq

/-- Shallow embedding of the `AnnData` object as `_average_peaks` reads it:
observation ids, `obs` column names, feature ids, the matrix (rows =
observations), the raw shadow matrix and the optional peak-annotation
table (`Option.none` models `'atac' not in adata.uns or 'peak_annotation'
not in adata.uns['atac']`). -/
structure AData where
  obs_names : List String
  obs_columns : List String
  var_names : List String
  mat : List (List Rat)
  raw : RawData
  annot : Option (List Annot)
deriving DecidableEq

/-- The Python values the `average` argument can take: a string, `None`,
`False`, or `-1` (all of which the source inspects explicitly). -/
inductive Average where
  | str (s : String)
  | pyNone
  | pyFalse
  | pyNegOne
deriving DecidableEq

/-- The Python values the `use_raw` argument can take (`dotplot` defaults
it to `None`); `truthy` is Python truthiness of these values. -/
inductive PyBool where
  | ptrue
  | pfalse
  | pnone
deriving DecidableEq

/-- Python truthiness: `if use_raw:`. -/
def PyBool.truthy : PyBool → Bool
  | PyBool.ptrue => true
  | _ => false

/-- The warnings `_average_peaks` can emit via `warnings.warn`. -/
inductive Warning where
  | peaksNotFound (key : String)
  | averageNotRecognised (value : String)
deriving DecidableEq

/-- The two raising conditions of `_average_peaks`: the explicit
`KeyError` when the peak-annotation table is absent, and the `KeyError`
pandas raises from `.loc[[key]]` when the key has no annotation row. -/
inductive PlotError where
  | noAnnot (key : String)
  | keyNotFound (key : String)
deriving DecidableEq

/-- The message of each raising condition.  The first string is the
literal from the source; the second models the message of the `KeyError`
raised by the external pandas `.loc[[key]]` lookup. -/
def PlotError.message : PlotError → String
  | PlotError.noAnnot key =>
      "There is no feature or feature annotation " ++ key ++ ". If it is a gene name, load peak annotation with muon.atac.pp.add_peak_annotation first."
  | PlotError.keyNotFound key =>
      "None of [Index([" ++ key ++ "], dtype=object)] are in the index"

/-- Value of column `p` in one matrix row (feature names paired
positionally with the row's values). -/
def lookupVal : List String → List Rat → String → Option Rat
  | [], _, _ => Option.none
  | _ :: _, [], _ => Option.none
  | v :: vs, a :: xs, p => if v = p then Option.some a else lookupVal vs xs p

/-- The values of the columns named in `peaks` in one row, in the order
of `peaks` (names absent from the feature axis contribute nothing). -/
def rowSelect (vars : List String) (row : List Rat) (peaks : List String) : List Rat :=
  peaks.filterMap (lookupVal vars row)

/-- Arithmetic mean of a list of rationals. -/
def listMean (l : List Rat) : Rat := l.sum / (l.length : Rat)

/-- `np.asarray(adata[:, peaks].X.mean(axis=1)).reshape(-1)`: the
row-wise mean over the columns named in `peaks`, one value per
observation, in the matrix's observation order. -/
def meanCols (vars : List String) (mat : List (List Rat)) (peaks : List String) : List Rat :=
  mat.map (fun row => listMean (rowSelect vars row peaks))

/-- pandas column assignment `x[name] = col`: overwrite the column if
the name exists, append it otherwise. -/
def dfSet (x : List (String × List Rat)) (name : String) (col : List Rat) :
    List (String × List Rat) :=
  if x.any (fun p => p.1 == name) then
    x.map (fun p => if p.1 == name then (p.1, col) else p)
  else x ++ [(name, col)]

/-- One step of building the `defaultdict(list)` used in the
`peak_type` branch: append `p` to the group of `t`, creating the group
at the end when `t` is new (Python dicts preserve insertion order). -/
def insertGroup (d : List (String × List String)) (t p : String) :
    List (String × List String) :=
  if d.any (fun g => g.1 == t) then
    d.map (fun g => if g.1 == t then (g.1, g.2 ++ [p]) else g)
  else d ++ [(t, [p])]

/-- `peak_dict`: group the filtered annotation rows by `peak_type`,
collecting each row's `peak`, in first-encounter order of the types. -/
def peakDict (rows : List Annot) : List (String × List String) :=
  rows.foldl (fun d a => insertGroup d a.ptype a.peak) []

/-- `peak_sel.loc[[key]]` row selection: all annotation rows whose gene
label equals the key, in table order. -/
def geneSel (ann : List Annot) (key : String) : List Annot :=
  ann.filter (fun a => a.gene == key)

/-- `peak_sel = peak_sel[peak_sel.peak.isin(adata.var_names.values)]`:
the key's annotation rows restricted to peaks present in the matrix. -/
def peakSel (adata : AData) (ann : List Annot) (key : String) : List Annot :=
  (geneSel ann key).filter (fun a => adata.var_names.contains a.peak)

/-- `peaks = peak_sel.peak`: the filtered peak ids of the key. -/
def matchedPeaks (adata : AData) (ann : List Annot) (key : String) : List String :=
  (peakSel adata ann key).map (fun a => a.peak)

/-- The feature axis aggregation reads from: raw when `use_raw` is
truthy, the processed matrix otherwise. -/
def pickVars (adata : AData) (use_raw : PyBool) : List String :=
  if use_raw.truthy then adata.raw.vnames else adata.var_names

/-- The matrix aggregation reads from: raw when `use_raw` is truthy,
the processed matrix otherwise. -/
def pickMat (adata : AData) (use_raw : PyBool) : List (List Rat) :=
  if use_raw.truthy then adata.raw.mat else adata.mat

/-- `f"{key} (all peaks)"`. -/
def allPeaksName (key : String) : String := key ++ " (all peaks)"

/-- `f"{key} ({t} peaks)"`. -/
def typeName (key t : String) : String := key ++ " (" ++ t ++ " peaks)"

/-- The three outputs of `_average_peaks` plus the collected warnings:
the derived table `x` (insertion-ordered columns), `attr_names` (the
display names) and `tmp_names` (the names appended in the aggregation
branches). -/
structure ResolveResult where
  x : List (String × List Rat)
  attr_names : List String
  tmp_names : List String
  warns : List Warning
deriving DecidableEq

/-- Shared body of the two aggregation branches: append the derived
name to `attr_names` and `tmp_names`, then compute the column into `x`
unless a column of that name already exists in `adata.obs.columns`. -/
def addName (adata : AData) (use_raw : PyBool) (r : ResolveResult)
    (name : String) (peaks : List String) : ResolveResult :=
  if name ∈ adata.obs_columns then
    { r with attr_names := r.attr_names ++ [name], tmp_names := r.tmp_names ++ [name] }
  else
    { r with attr_names := r.attr_names ++ [name], tmp_names := r.tmp_names ++ [name],
             x := dfSet r.x name (meanCols (pickVars adata use_raw) (pickMat adata use_raw) peaks) }

/-- One iteration of the `for t, p in peak_dict.items()` loop. -/
def stepType (adata : AData) (use_raw : PyBool) (key : String)
    (r : ResolveResult) (g : String × List String) : ResolveResult :=
  addName adata use_raw r (typeName key g.1) g.2

/-- The warning of the fall-through branch: emitted exactly when
`average is not None and average is not False and average != -1`. -/
def warnOf : Average → List Warning
  | Average.str s => [Warning.averageNotRecognised s]
  | _ => []

/-- The body of the `for key in keys` loop of `_average_peaks`. -/
def step (adata : AData) (average : Average) (use_raw : PyBool)
    (r : ResolveResult) (key : String) : Except PlotError ResolveResult :=
  if key ∈ adata.obs_names ∨ key ∈ adata.obs_columns then
    Except.ok { r with attr_names := r.attr_names ++ [key] }
  else
    match adata.annot with
    | Option.none => Except.error (PlotError.noAnnot key)
    | Option.some ann =>
      if geneSel ann key = [] then Except.error (PlotError.keyNotFound key)
      else if matchedPeaks adata ann key = [] then
        Except.ok { r with warns := r.warns ++ [Warning.peaksNotFound key] }
      else if average = Average.str "total" ∨ average = Average.str "all" then
        Except.ok (addName adata use_raw r (allPeaksName key) (matchedPeaks adata ann key))
      else if average = Average.str "peak_type" then
        Except.ok (List.foldl (stepType adata use_raw key) r (peakDict (peakSel adata ann key)))
      else
        Except.ok { r with attr_names := r.attr_names ++ matchedPeaks adata ann key,
                           warns := r.warns ++ warnOf average }

/-- The initial accumulator: `x = adata.obs.loc[:,[]]` (no columns) and
three empty lists. -/
def emptyResult : ResolveResult := ⟨[], [], [], []⟩

/-- `_average_peaks(adata, keys, average, use_raw)`. -/
def average_peaks (adata : AData) (keys : List String) (average : Average)
    (use_raw : PyBool) : Except PlotError ResolveResult :=
  keys.foldlM (step adata average use_raw) emptyResult

/-- A column is the row-wise mean, over some non-empty list of peak
columns, of the matrix `_average_peaks` aggregates from. -/
def isMeanOfSomePeaks (adata : AData) (ur : PyBool) (c : List Rat) : Prop :=
  ∃ peaks : List String, peaks ≠ [] ∧ c = meanCols (pickVars adata ur) (pickMat adata ur) peaks

/-- Invariant of the resolution result: `tmp_names` is a sublist of
`attr_names`, and a name is a column of the derived table exactly when
it occurs in `tmp_names` and is not an existing `obs` column. -/
def NamesInv (adata : AData) (r : ResolveResult) : Prop :=
  r.tmp_names.Sublist r.attr_names ∧
  ∀ n, (n ∈ r.x.map Prod.fst ↔ (n ∈ r.tmp_names ∧ n ∉ adata.obs_columns))

/-- Test fixture: the gene `G1` is linked to a promoter peak and a
distal peak, both present in the matrix, with per-observation values
`[2, 4]` and `[6, 8]`. -/
def w1ann : List Annot :=
  [⟨"G1", "chr1:1-100", "promoter"⟩, ⟨"G1", "chr1:200-300", "distal"⟩]

/-- Test fixture: two observations, one ordinary `obs` column, the two
`G1` peaks as features, and a raw shadow matrix with tenfold values. -/
def w1adata : AData :=
  { obs_names := ["c1", "c2"]
    obs_columns := ["cluster"]
    var_names := ["chr1:1-100", "chr1:200-300"]
    mat := [[2, 6], [4, 8]]
    raw := ⟨["chr1:1-100", "chr1:200-300"], [[20, 60], [40, 80]]⟩
    annot := Option.some w1ann }

/-- Fixture in which `obs` already contains a column named
`G1 (all peaks)` (the name the `total` branch would derive for `G1`). -/
def cObsAdata : AData :=
  { obs_names := ["c1", "c2"]
    obs_columns := ["G1 (all peaks)"]
    var_names := ["chr1:1-100", "chr1:200-300"]
    mat := [[2, 6], [4, 8]]
    raw := ⟨["chr1:1-100", "chr1:200-300"], [[2, 6], [4, 8]]⟩
    annot := Option.some w1ann }

/-- Fixture in which `obs` already contains a column named
`G1 (promoter peaks)` (a name the `peak_type` branch would derive). -/
def cPromAdata : AData :=
  { obs_names := ["c1", "c2"]
    obs_columns := ["G1 (promoter peaks)"]
    var_names := ["chr1:1-100", "chr1:200-300"]
    mat := [[2, 6], [4, 8]]
    raw := ⟨["chr1:1-100", "chr1:200-300"], [[2, 6], [4, 8]]⟩
    annot := Option.some w1ann }

/-- Fixture with the peak-annotation table entirely absent
(`'atac' not in adata.uns`). -/
def cNoAnnAdata : AData :=
  { obs_names := ["c1"]
    obs_columns := []
    var_names := ["p1"]
    mat := [[1]]
    raw := ⟨["p1"], [[1]]⟩
    annot := Option.none }

/-- Fixture in which gene `G2` is annotated but its only peak has been
filtered out of the matrix. -/
def w4ann : List Annot := [⟨"G2", "chrX:1-5", "promoter"⟩]

/-- Matrix for the filtered-out-peak fixture: `chrX:1-5` is not among
its features. -/
def w4adata : AData :=
  { obs_names := ["c1"]
    obs_columns := []
    var_names := ["p1"]
    mat := [[1]]
    raw := ⟨["p1"], [[1]]⟩
    annot := Option.some w4ann }

/-- Fixture in which two different keys derive the same attribute name:
gene `a (b` with a type-`c` peak and gene `a` with a type-`b (c` peak
both derive `a (b (c peaks)` under `peak_type` mode. -/
def c6ann : List Annot := [⟨"a (b", "p1", "c"⟩, ⟨"a", "p2", "b (c"⟩]

/-- Matrix for the name-collision fixture: one observation with value 1
at peak `p1` and 2 at peak `p2`. -/
def c6adata : AData :=
  { obs_names := ["c1"]
    obs_columns := []
    var_names := ["p1", "p2"]
    mat := [[1, 2]]
    raw := ⟨["p1", "p2"], [[1, 2]]⟩
    annot := Option.some c6ann }

section Lemmas

theorem mem_dfSet {x : List (String × List Rat)} {n : String} {c : List Rat}
    {p : String × List Rat} (h : p ∈ dfSet x n c) : p.2 = c ∨ p ∈ x := by
  unfold dfSet at h
  split at h
  · rcases List.mem_map.mp h with ⟨q, hq, hqe⟩
    by_cases hqn : q.1 = n
    · have hp : p = (q.1, c) := by rw [← hqe]; simp [hqn]
      exact Or.inl (by rw [hp])
    · have hp : p = q := by rw [← hqe]; simp [hqn]
      exact Or.inr (hp ▸ hq)
  · rcases List.mem_append.mp h with h' | h'
    · exact Or.inr h'
    · have hp : p = (n, c) := by simpa using h'
      exact Or.inl (by rw [hp])

theorem dfSet_names_mem (x : List (String × List Rat)) (n : String) (c : List Rat)
    (m : String) : m ∈ (dfSet x n c).map Prod.fst ↔ (m ∈ x.map Prod.fst ∨ m = n) := by
  unfold dfSet
  split
  · next h =>
    have hn : n ∈ x.map Prod.fst := by
      rcases List.any_eq_true.mp h with ⟨q, hq, hqn⟩
      have : q.1 = n := by simpa using hqn
      exact this ▸ List.mem_map_of_mem Prod.fst hq
    have hmap : (x.map fun q => if q.1 == n then (q.1, c) else q).map Prod.fst
        = x.map Prod.fst := by
      rw [List.map_map]
      apply List.map_congr_left
      intro q _
      by_cases hq : q.1 = n
      · simp [hq]
      · simp [hq]
    rw [hmap]
    constructor
    · exact Or.inl
    · rintro (h' | rfl)
      · exact h'
      · exact hn
  · simp

theorem dfSet_of_not_mem {x : List (String × List Rat)} {n : String} (c : List Rat)
    (h : ∀ q ∈ x, q.1 ≠ n) : dfSet x n c = x ++ [(n, c)] := by
  have hc : ¬ (x.any fun q => q.1 == n) = true := by
    intro hany
    rcases List.any_eq_true.mp hany with ⟨q, hq, hqn⟩
    exact h q hq (by simpa using hqn)
  unfold dfSet
  rw [if_neg hc]

theorem insertGroup_keys (d : List (String × List String)) (t p : String) :
    (insertGroup d t p).map Prod.fst =
      if d.any (fun g => g.1 == t) then d.map Prod.fst else d.map Prod.fst ++ [t] := by
  unfold insertGroup
  split
  · rw [List.map_map]
    apply List.map_congr_left
    intro q _
    by_cases hq : q.1 = t
    · simp [hq]
    · simp [hq]
  · simp

theorem mem_insertGroup {d : List (String × List String)} {t p : String}
    {g : String × List String} (h : g ∈ insertGroup d t p) :
    g.2 ≠ [] ∨ g ∈ d := by
  unfold insertGroup at h
  split at h
  · rcases List.mem_map.mp h with ⟨q, hq, hqe⟩
    by_cases hqt : q.1 = t
    · have hg : g = (q.1, q.2 ++ [p]) := by rw [← hqe]; simp [hqt]
      exact Or.inl (by rw [hg]; simp)
    · have hg : g = q := by rw [← hqe]; simp [hqt]
      exact Or.inr (hg ▸ hq)
  · rcases List.mem_append.mp h with h' | h'
    · exact Or.inr h'
    · have hg : g = (t, [p]) := by simpa using h'
      exact Or.inl (by rw [hg]; simp)

theorem peakDict_aux_groups {rows : List Annot} :
    ∀ {d : List (String × List String)}, (∀ g ∈ d, g.2 ≠ []) →
      ∀ g ∈ rows.foldl (fun d a => insertGroup d a.ptype a.peak) d, g.2 ≠ [] := by
  induction rows with
  | nil => intro d hd g hg; exact hd g hg
  | cons a rows ih =>
    intro d hd g hg
    refine ih ?hstep g hg
    intro g' hg'
    rcases mem_insertGroup hg' with h | h
    · exact h
    · exact hd g' h

theorem peakDict_groups_ne_nil (rows : List Annot) :
    ∀ g ∈ peakDict rows, g.2 ≠ [] :=
  peakDict_aux_groups (by intro g hg; cases hg)

theorem peakDict_aux_nodup {rows : List Annot} :
    ∀ {d : List (String × List String)}, (d.map Prod.fst).Nodup →
      ((rows.foldl (fun d a => insertGroup d a.ptype a.peak) d).map Prod.fst).Nodup := by
  induction rows with
  | nil => intro d hd; exact hd
  | cons a rows ih =>
    intro d hd
    refine ih ?hstep
    rw [insertGroup_keys]
    split
    · exact hd
    · next h =>
      have ht : a.ptype ∉ d.map Prod.fst := by
        intro hmem
        rcases List.mem_map.mp hmem with ⟨q, hq, hqt⟩
        exact h (List.any_eq_true.mpr ⟨q, hq, by simp [hqt]⟩)
      simp [List.nodup_append, hd, ht]

theorem peakDict_keys_nodup (rows : List Annot) :
    ((peakDict rows).map Prod.fst).Nodup :=
  peakDict_aux_nodup (by simp)

theorem typeName_inj (key : String) : Function.Injective (typeName key) := by
  intro t₁ t₂ h
  have hd := congrArg String.data h
  simp only [typeName] at hd
  have hd' : ((key ++ " (").data ++ t₁.data) ++ " peaks)".data
      = ((key ++ " (").data ++ t₂.data) ++ " peaks)".data := by
    simpa using hd
  exact String.ext (List.append_cancel_left (List.append_cancel_right hd'))

theorem step_direct {adata : AData} {key : String} (avg : Average) (ur : PyBool)
    (r : ResolveResult) (h : key ∈ adata.obs_names ∨ key ∈ adata.obs_columns) :
    step adata avg ur r key = Except.ok { r with attr_names := r.attr_names ++ [key] } := by
  simp [step, h]

theorem step_noAnnot {adata : AData} {key : String} (avg : Average) (ur : PyBool)
    (r : ResolveResult) (h1 : ¬(key ∈ adata.obs_names ∨ key ∈ adata.obs_columns))
    (h2 : adata.annot = Option.none) :
    step adata avg ur r key = Except.error (PlotError.noAnnot key) := by
  simp [step, h1, h2]

theorem step_keyNotFound {adata : AData} {key : String} {ann : List Annot}
    (avg : Average) (ur : PyBool) (r : ResolveResult)
    (h1 : ¬(key ∈ adata.obs_names ∨ key ∈ adata.obs_columns))
    (h2 : adata.annot = Option.some ann) (h3 : geneSel ann key = []) :
    step adata avg ur r key = Except.error (PlotError.keyNotFound key) := by
  simp [step, h1, h2, h3]

theorem step_emptyPeaks {adata : AData} {key : String} {ann : List Annot}
    (avg : Average) (ur : PyBool) (r : ResolveResult)
    (h1 : ¬(key ∈ adata.obs_names ∨ key ∈ adata.obs_columns))
    (h2 : adata.annot = Option.some ann) (h3 : geneSel ann key ≠ [])
    (h4 : matchedPeaks adata ann key = []) :
    step adata avg ur r key
      = Except.ok { r with warns := r.warns ++ [Warning.peaksNotFound key] } := by
  simp [step, h1, h2, h3, h4]

theorem step_total {adata : AData} {key : String} {ann : List Annot} {avg : Average}
    (ur : PyBool) (r : ResolveResult)
    (h1 : ¬(key ∈ adata.obs_names ∨ key ∈ adata.obs_columns))
    (h2 : adata.annot = Option.some ann) (h3 : geneSel ann key ≠ [])
    (h4 : matchedPeaks adata ann key ≠ [])
    (h5 : avg = Average.str "total" ∨ avg = Average.str "all") :
    step adata avg ur r key
      = Except.ok (addName adata ur r (allPeaksName key) (matchedPeaks adata ann key)) := by
  simp [step, h1, h2, h3, h4, h5]

theorem step_ptype {adata : AData} {key : String} {ann : List Annot}
    (ur : PyBool) (r : ResolveResult)
    (h1 : ¬(key ∈ adata.obs_names ∨ key ∈ adata.obs_columns))
    (h2 : adata.annot = Option.some ann) (h3 : geneSel ann key ≠ [])
    (h4 : matchedPeaks adata ann key ≠ []) :
    step adata (Average.str "peak_type") ur r key
      = Except.ok (List.foldl (stepType adata ur key) r (peakDict (peakSel adata ann key))) := by
  simp [step, h1, h2, h3, h4]

theorem step_other {adata : AData} {key : String} {ann : List Annot} {avg : Average}
    (ur : PyBool) (r : ResolveResult)
    (h1 : ¬(key ∈ adata.obs_names ∨ key ∈ adata.obs_columns))
    (h2 : adata.annot = Option.some ann) (h3 : geneSel ann key ≠ [])
    (h4 : matchedPeaks adata ann key ≠ [])
    (h5 : avg ≠ Average.str "total") (h6 : avg ≠ Average.str "all")
    (h7 : avg ≠ Average.str "peak_type") :
    step adata avg ur r key
      = Except.ok { r with attr_names := r.attr_names ++ matchedPeaks adata ann key,
                           warns := r.warns ++ warnOf avg } := by
  simp [step, h1, h2, h3, h4, h5, h6, h7]

theorem average_peaks_append (adata : AData) (avg : Average) (ur : PyBool)
    (ks₁ ks₂ : List String) :
    average_peaks adata (ks₁ ++ ks₂) avg ur
      = (average_peaks adata ks₁ avg ur) >>= (fun r => ks₂.foldlM (step adata avg ur) r) := by
  simp [average_peaks, List.foldlM_append]

theorem foldlM_step_preserves {P : ResolveResult → Prop} {adata : AData} {avg : Average}
    {ur : PyBool} {keys : List String} {r₀ r : ResolveResult} (h₀ : P r₀)
    (hstep : ∀ s k s', P s → step adata avg ur s k = Except.ok s' → P s')
    (h : List.foldlM (step adata avg ur) r₀ keys = Except.ok r) : P r := by
  induction keys generalizing r₀ with
  | nil =>
    simp only [List.foldlM_nil] at h
    cases h
    exact h₀
  | cons k ks ih =>
    rw [List.foldlM_cons] at h
    cases hs : step adata avg ur r₀ k with
    | error e => rw [hs] at h; simp [Bind.bind, Except.bind] at h
    | ok s' =>
      rw [hs] at h
      simp only [Bind.bind, Except.bind] at h ⊢
      exact ih (hstep _ _ _ h₀ hs) h

theorem foldl_stepType_eq (adata : AData) (ur : PyBool) (key : String) :
    ∀ (d : List (String × List String)) (r : ResolveResult),
      (∀ g ∈ d, typeName key g.1 ∉ adata.obs_columns) →
      (∀ g ∈ d, ∀ q ∈ r.x, q.1 ≠ typeName key g.1) →
      ((d.map (fun g => typeName key g.1)).Nodup) →
      List.foldl (stepType adata ur key) r d =
        { x := r.x ++ d.map (fun g =>
            (typeName key g.1, meanCols (pickVars adata ur) (pickMat adata ur) g.2)),
          attr_names := r.attr_names ++ d.map (fun g => typeName key g.1),
          tmp_names := r.tmp_names ++ d.map (fun g => typeName key g.1),
          warns := r.warns } := by
  intro d
  induction d with
  | nil => intro r _ _ _; simp
  | cons g d ih =>
    intro r hfresh hnew hnodup
    have hg : typeName key g.1 ∉ adata.obs_columns := hfresh g (List.mem_cons_self g d)
    have hstep : stepType adata ur key r g = { r with x := r.x ++ [(typeName key g.1, meanCols (pickVars adata ur) (pickMat adata ur) g.2)], attr_names := r.attr_names ++ [typeName key g.1], tmp_names := r.tmp_names ++ [typeName key g.1] } := by
      unfold stepType addName
      rw [if_neg hg, dfSet_of_not_mem]
      intro q hq
      exact hnew g (List.mem_cons_self g d) q hq
    rw [List.foldl_cons, hstep, ih]
    · simp
    · intro g' hg'
      exact hfresh g' (List.mem_cons_of_mem g hg')
    · intro g' hg' q hq
      rcases List.mem_append.mp hq with hq' | hq'
      · exact hnew g' (List.mem_cons_of_mem g hg') q hq'
      · have hqe : q.1 = typeName key g.1 := by
          have : q = (typeName key g.1,
              meanCols (pickVars adata ur) (pickMat adata ur) g.2) := by simpa using hq'
          rw [this]
        rw [hqe]
        intro hcontra
        have hmem : typeName key g.1 ∈ d.map (fun g => typeName key g.1) := by
          rw [hcontra]
          exact List.mem_map_of_mem _ hg'
        rw [List.map_cons] at hnodup
        exact (List.nodup_cons.mp hnodup).1 hmem
    · rw [List.map_cons] at hnodup
      exact (List.nodup_cons.mp hnodup).2

theorem addName_names {adata : AData} {ur : PyBool} {r : ResolveResult}
    {name : String} {peaks : List String} (h : NamesInv adata r) :
    NamesInv adata (addName adata ur r name peaks) := by
  unfold addName
  split
  · next hin =>
    refine ⟨h.1.append (List.Sublist.refl [name]), ?_⟩
    intro n
    have h2 := h.2 n
    constructor
    · intro hx
      rcases h2.mp hx with ⟨ht, hc⟩
      exact ⟨List.mem_append_left _ ht, hc⟩
    · rintro ⟨ht, hc⟩
      rcases List.mem_append.mp ht with ht' | ht'
      · exact h2.mpr ⟨ht', hc⟩
      · have hn : n = name := by simpa using ht'
        exact absurd (hn ▸ hin) hc
  · next hin =>
    refine ⟨h.1.append (List.Sublist.refl [name]), ?_⟩
    intro n
    rw [show ({ r with attr_names := r.attr_names ++ [name], tmp_names := r.tmp_names ++ [name], x := dfSet r.x name (meanCols (pickVars adata ur) (pickMat adata ur) peaks) } : ResolveResult).x = dfSet r.x name (meanCols (pickVars adata ur) (pickMat adata ur) peaks) from rfl]
    rw [dfSet_names_mem]
    constructor
    · rintro (hx | rfl)
      · rcases (h.2 n).mp hx with ⟨ht, hc⟩
        exact ⟨List.mem_append_left _ ht, hc⟩
      · exact ⟨List.mem_append_right _ (by simp), hin⟩
    · rintro ⟨ht, hc⟩
      rcases List.mem_append.mp ht with ht' | ht'
      · exact Or.inl ((h.2 n).mpr ⟨ht', hc⟩)
      · exact Or.inr (by simpa using ht')

theorem foldl_stepType_names (adata : AData) (ur : PyBool) (key : String) :
    ∀ (d : List (String × List String)) (r : ResolveResult), NamesInv adata r →
      NamesInv adata (List.foldl (stepType adata ur key) r d) := by
  intro d
  induction d with
  | nil => intro r h; exact h
  | cons g d ih => intro r h; exact ih _ (addName_names h)

theorem step_names {adata : AData} {avg : Average} {ur : PyBool}
    {s : ResolveResult} {k : String} {s' : ResolveResult}
    (h : NamesInv adata s) (hs : step adata avg ur s k = Except.ok s') :
    NamesInv adata s' := by
  by_cases hd : k ∈ adata.obs_names ∨ k ∈ adata.obs_columns
  · rw [step_direct avg ur s hd] at hs
    injection hs with h'
    subst h'
    exact ⟨h.1.trans (List.sublist_append_left s.attr_names [k]), h.2⟩
  · cases hann : adata.annot with
    | none => rw [step_noAnnot avg ur s hd hann] at hs; simp at hs
    | some ann =>
      by_cases hsel : geneSel ann k = []
      · rw [step_keyNotFound avg ur s hd hann hsel] at hs; simp at hs
      · by_cases hpk : matchedPeaks adata ann k = []
        · rw [step_emptyPeaks avg ur s hd hann hsel hpk] at hs
          injection hs with h'
          subst h'
          exact ⟨h.1, h.2⟩
        · by_cases hmode : avg = Average.str "total" ∨ avg = Average.str "all"
          · rw [step_total ur s hd hann hsel hpk hmode] at hs
            injection hs with h'
            subst h'
            exact addName_names h
          · by_cases hmode2 : avg = Average.str "peak_type"
            · subst hmode2
              rw [step_ptype ur s hd hann hsel hpk] at hs
              injection hs with h'
              subst h'
              exact foldl_stepType_names adata ur k _ s h
            · push_neg at hmode
              rw [step_other ur s hd hann hsel hpk hmode.1 hmode.2 hmode2] at hs
              injection hs with h'
              subst h'
              exact ⟨h.1.trans (List.sublist_append_left s.attr_names (matchedPeaks adata ann k)), h.2⟩

theorem addName_mean {adata : AData} {ur : PyBool} {r : ResolveResult}
    {name : String} {peaks : List String}
    (h : ∀ p ∈ r.x, isMeanOfSomePeaks adata ur p.2) (hpk : peaks ≠ []) :
    ∀ p ∈ (addName adata ur r name peaks).x, isMeanOfSomePeaks adata ur p.2 := by
  unfold addName
  split
  · exact h
  · intro p hp
    rcases mem_dfSet hp with hc | hmem
    · exact ⟨peaks, hpk, hc⟩
    · exact h p hmem

theorem foldl_stepType_mean (adata : AData) (ur : PyBool) (key : String) :
    ∀ (d : List (String × List String)) (r : ResolveResult),
      (∀ g ∈ d, (g : String × List String).2 ≠ []) →
      (∀ p ∈ r.x, isMeanOfSomePeaks adata ur p.2) →
      ∀ p ∈ (List.foldl (stepType adata ur key) r d).x, isMeanOfSomePeaks adata ur p.2 := by
  intro d
  induction d with
  | nil => intro r _ h; exact h
  | cons g d ih =>
    intro r hg h
    exact ih _ (fun g' hg' => hg g' (List.mem_cons_of_mem g hg'))
      (addName_mean h (hg g (List.mem_cons_self g d)))

theorem step_mean {adata : AData} {avg : Average} {ur : PyBool}
    {s : ResolveResult} {k : String} {s' : ResolveResult}
    (h : ∀ p ∈ s.x, isMeanOfSomePeaks adata ur p.2)
    (hs : step adata avg ur s k = Except.ok s') :
    ∀ p ∈ s'.x, isMeanOfSomePeaks adata ur p.2 := by
  by_cases hd : k ∈ adata.obs_names ∨ k ∈ adata.obs_columns
  · rw [step_direct avg ur s hd] at hs
    injection hs with h'
    subst h'
    exact h
  · cases hann : adata.annot with
    | none => rw [step_noAnnot avg ur s hd hann] at hs; simp at hs
    | some ann =>
      by_cases hsel : geneSel ann k = []
      · rw [step_keyNotFound avg ur s hd hann hsel] at hs; simp at hs
      · by_cases hpk : matchedPeaks adata ann k = []
        · rw [step_emptyPeaks avg ur s hd hann hsel hpk] at hs
          injection hs with h'
          subst h'
          exact h
        · by_cases hmode : avg = Average.str "total" ∨ avg = Average.str "all"
          · rw [step_total ur s hd hann hsel hpk hmode] at hs
            injection hs with h'
            subst h'
            exact addName_mean h hpk
          · by_cases hmode2 : avg = Average.str "peak_type"
            · subst hmode2
              rw [step_ptype ur s hd hann hsel hpk] at hs
              injection hs with h'
              subst h'
              exact foldl_stepType_mean adata ur k _ s
                (fun g hg => peakDict_groups_ne_nil _ g hg) h
            · push_neg at hmode
              rw [step_other ur s hd hann hsel hpk hmode.1 hmode.2 hmode2] at hs
              injection hs with h'
              subst h'
              exact h

theorem step_error_char {adata : AData} {avg : Average} {ur : PyBool}
    {r : ResolveResult} {key : String} {e : PlotError}
    (h : step adata avg ur r key = Except.error e) :
    ¬(key ∈ adata.obs_names ∨ key ∈ adata.obs_columns) ∧
    ((adata.annot = Option.none ∧ e = PlotError.noAnnot key) ∨
     (∃ ann, adata.annot = Option.some ann ∧ geneSel ann key = [] ∧
        e = PlotError.keyNotFound key)) := by
  by_cases hd : key ∈ adata.obs_names ∨ key ∈ adata.obs_columns
  · rw [step_direct avg ur r hd] at h
    simp at h
  · refine ⟨hd, ?rest⟩
    cases hann : adata.annot with
    | none =>
      rw [step_noAnnot avg ur r hd hann] at h
      injection h with h'
      exact Or.inl ⟨rfl, h'.symm⟩
    | some ann =>
      by_cases hsel : geneSel ann key = []
      · rw [step_keyNotFound avg ur r hd hann hsel] at h
        injection h with h'
        exact Or.inr ⟨ann, rfl, hsel, h'.symm⟩
      · exfalso
        by_cases hpk : matchedPeaks adata ann key = []
        · rw [step_emptyPeaks avg ur r hd hann hsel hpk] at h
          simp at h
        · by_cases hmode : avg = Average.str "total" ∨ avg = Average.str "all"
          · rw [step_total ur r hd hann hsel hpk hmode] at h
            simp at h
          · by_cases hmode2 : avg = Average.str "peak_type"
            · subst hmode2
              rw [step_ptype ur r hd hann hsel hpk] at h
              simp at h
            · push_neg at hmode
              rw [step_other ur r hd hann hsel hpk hmode.1 hmode.2 hmode2] at h
              simp at h

theorem foldlM_error_char {adata : AData} {avg : Average} {ur : PyBool} :
    ∀ (keys : List String) (r₀ : ResolveResult) (e : PlotError),
      List.foldlM (step adata avg ur) r₀ keys = Except.error e →
      ∃ key ∈ keys, ¬(key ∈ adata.obs_names ∨ key ∈ adata.obs_columns) ∧
        ((adata.annot = Option.none ∧ e = PlotError.noAnnot key) ∨
         (∃ ann, adata.annot = Option.some ann ∧ geneSel ann key = [] ∧
            e = PlotError.keyNotFound key)) := by
  intro keys
  induction keys with
  | nil => intro r₀ e h; simp [List.foldlM_nil, pure, Except.pure] at h
  | cons k ks ih =>
    intro r₀ e h
    rw [List.foldlM_cons] at h
    cases hs : step adata avg ur r₀ k with
    | error e' =>
      rw [hs] at h
      simp only [Bind.bind, Except.bind] at h
      injection h with h'
      subst h'
      exact ⟨k, List.mem_cons_self k ks, step_error_char hs⟩
    | ok s' =>
      rw [hs] at h
      simp only [Bind.bind, Except.bind] at h
      obtain ⟨key, hmem, hc⟩ := ih s' e h
      exact ⟨key, List.mem_cons_of_mem k hmem, hc⟩

end Lemmas

/-- C10: resolving with `use_raw = None` (the default `dotplot` forwards
to `_average_peaks`) produces exactly the same derived table, display
names, new names and warnings as resolving with `use_raw = False`:
aggregation reads the processed matrix whenever `use_raw` is falsy. -/
theorem c10_use_raw_none_eq_false (adata : AData) (keys : List String) (avg : Average) :
    average_peaks adata keys avg PyBool.pnone = average_peaks adata keys avg PyBool.pfalse := by
  have hstep : step adata avg PyBool.pnone = step adata avg PyBool.pfalse := by
    funext r key
    rfl
  unfold average_peaks
  rw [hstep]

/-- C8: a key equal to an observation identifier or an existing `obs`
column name is appended unchanged to `attr_names`; the derived table,
`tmp_names` and the warnings are exactly those of the remaining keys. -/
theorem c8_direct_match (adata : AData) (avg : Average) (ur : PyBool) (key : String)
    (ks : List String) (h : key ∈ adata.obs_names ∨ key ∈ adata.obs_columns) :
    average_peaks adata (ks ++ [key]) avg ur
      = (average_peaks adata ks avg ur).map
          (fun r => { r with attr_names := r.attr_names ++ [key] }) := by
  rw [average_peaks_append]
  cases hks : average_peaks adata ks avg ur with
  | error e => simp [Bind.bind, Except.bind, Except.map]
  | ok r =>
    simp only [Bind.bind, Except.bind, Except.map]
    rw [List.foldlM_cons, step_direct avg ur r h]
    simp [Bind.bind, Except.bind, pure, Except.pure]

/-- C8 witness: resolving the existing `obs` column `cluster` appends
it unchanged with no derived column, no tmp name and no warning. -/
theorem c8_witness :
    average_peaks w1adata ["cluster"] (Average.str "total") PyBool.ptrue
      = Except.ok ⟨[], ["cluster"], [], []⟩ := by
  have h := c8_direct_match w1adata (Average.str "total") PyBool.ptrue "cluster" [] (Or.inr (by decide))
  simpa using h

/-- C5 counterexample: with `average = ""` (a falsy, unrecognized
string) the resolver does emit the not-recognised warning, although the
claim states a warning is emitted exactly for non-falsy unrecognized
strings. -/
theorem c5_counterexample :
    average_peaks w1adata ["G1"] (Average.str "") PyBool.pfalse
      = Except.ok ⟨[], ["chr1:1-100", "chr1:200-300"], [],
          [Warning.averageNotRecognised ""]⟩ := by
  decide

/-- C5 (amended): for a gene key with a non-empty filtered peak set and
an aggregation mode other than `total`, `all` and `peak_type`, no
aggregation is performed, every matched peak id is appended to the
display names, and exactly one warning is emitted iff the mode is a
string (`None`, `False` and `-1` emit none; falsy strings do warn). -/
theorem c5_fallback (adata : AData) (avg : Average) (ur : PyBool) (key : String)
    (ann : List Annot)
    (h1 : ¬(key ∈ adata.obs_names ∨ key ∈ adata.obs_columns))
    (h2 : adata.annot = Option.some ann)
    (h3 : geneSel ann key ≠ [])
    (h4 : matchedPeaks adata ann key ≠ [])
    (h5 : avg ≠ Average.str "total") (h6 : avg ≠ Average.str "all")
    (h7 : avg ≠ Average.str "peak_type") :
    average_peaks adata [key] avg ur
      = Except.ok ⟨[], matchedPeaks adata ann key, [], warnOf avg⟩ := by
  unfold average_peaks
  rw [List.foldlM_cons, step_other ur emptyResult h1 h2 h3 h4 h5 h6 h7]
  simp [Bind.bind, Except.bind, emptyResult, pure, Except.pure]

/-- C5 witness: `average = "bogus"` on the two-peak gene `G1` lists the
two matched peak ids, derives nothing and emits the single warning. -/
theorem c5_witness :
    average_peaks w1adata ["G1"] (Average.str "bogus") PyBool.pfalse
      = Except.ok ⟨[], matchedPeaks w1adata w1ann "G1", [],
          warnOf (Average.str "bogus")⟩ :=
  c5_fallback w1adata (Average.str "bogus") PyBool.pfalse "G1" w1ann
    (by decide) rfl (by decide) (by decide) (by decide) (by decide) (by decide)

/-- C4: a gene key whose linked peaks are all absent from the matrix
contributes exactly one warning naming the key — no derived column, no
display name, no tmp name, no raise — and the remaining keys continue
to be processed from that state. -/
theorem c4_all_filtered_warns (adata : AData) (avg : Average) (ur : PyBool)
    (key : String) (ks₁ ks₂ : List String) (ann : List Annot)
    (h1 : ¬(key ∈ adata.obs_names ∨ key ∈ adata.obs_columns))
    (h2 : adata.annot = Option.some ann)
    (h3 : geneSel ann key ≠ [])
    (h4 : matchedPeaks adata ann key = []) :
    average_peaks adata (ks₁ ++ key :: ks₂) avg ur
      = (average_peaks adata ks₁ avg ur) >>= (fun r =>
          List.foldlM (step adata avg ur)
            { r with warns := r.warns ++ [Warning.peaksNotFound key] } ks₂) := by
  rw [average_peaks_append]
  cases hks : average_peaks adata ks₁ avg ur with
  | error e => simp [Bind.bind, Except.bind]
  | ok r =>
    simp only [Bind.bind, Except.bind]
    rw [List.foldlM_cons, step_emptyPeaks avg ur r h1 h2 h3 h4]
    simp [Bind.bind, Except.bind]

/-- C4 witness: gene `G2`, whose only annotated peak was filtered out
of the matrix, yields no column and exactly the one warning naming it. -/
theorem c4_witness :
    average_peaks w4adata ["G2"] (Average.str "total") PyBool.pfalse
      = Except.ok ⟨[], [], [], [Warning.peaksNotFound "G2"]⟩ := by
  have h := c4_all_filtered_warns w4adata (Average.str "total") PyBool.pfalse "G2" [] [] w4ann
    (by decide) rfl (by decide) (by decide)
  simpa using h

/-- C1 counterexample: when `obs` already contains a column named
`G1 (all peaks)`, resolving the gene key `G1` under `total` mode
produces ZERO derived columns (the name is listed but the existing obs
column is reused), although the claim requires exactly one. -/
theorem c1_counterexample :
    average_peaks cObsAdata ["G1"] (Average.str "total") PyBool.pfalse
      = Except.ok ⟨[], ["G1 (all peaks)"], ["G1 (all peaks)"], []⟩ := by
  decide

/-- C1 (amended): for a gene key with a non-empty filtered peak set,
under `total`/`all` mode, provided the name `<key> (all peaks)` is not
already an `obs` column, the resolver produces exactly one derived
column of that name whose value for each observation is the mean over
the matched peak columns of the matrix values (of the raw shadow matrix
when `use_raw` is truthy, of the processed matrix otherwise), aligned
to the matrix's observation order. -/
theorem c1_total_mean (adata : AData) (avg : Average) (ur : PyBool) (key : String)
    (ann : List Annot)
    (h1 : ¬(key ∈ adata.obs_names ∨ key ∈ adata.obs_columns))
    (h2 : adata.annot = Option.some ann)
    (h3 : geneSel ann key ≠ [])
    (h4 : matchedPeaks adata ann key ≠ [])
    (h5 : avg = Average.str "total" ∨ avg = Average.str "all")
    (h6 : allPeaksName key ∉ adata.obs_columns) :
    average_peaks adata [key] avg ur
      = Except.ok ⟨[(allPeaksName key, (pickMat adata ur).map (fun row =>
            listMean (rowSelect (pickVars adata ur) row (matchedPeaks adata ann key))))],
          [allPeaksName key], [allPeaksName key], []⟩ := by
  unfold average_peaks
  rw [List.foldlM_cons, step_total ur emptyResult h1 h2 h3 h4 h5]
  simp [addName, h6, dfSet, meanCols, emptyResult, Bind.bind, Except.bind, pure, Except.pure]

/-- C1 witness: the spec's own example, gene `G1` with per-observation
peak values `[2, 4]` and `[6, 8]` under `total` mode. -/
theorem c1_witness :
    average_peaks w1adata ["G1"] (Average.str "total") PyBool.pfalse
      = Except.ok ⟨[(allPeaksName "G1", (pickMat w1adata PyBool.pfalse).map (fun row =>
            listMean (rowSelect (pickVars w1adata PyBool.pfalse) row
              (matchedPeaks w1adata w1ann "G1"))))],
          [allPeaksName "G1"], [allPeaksName "G1"], []⟩ :=
  c1_total_mean w1adata (Average.str "total") PyBool.pfalse "G1" w1ann
    (by decide) rfl (by decide) (by decide) (Or.inl rfl) (by decide)

/-- Concrete value check matching the spec's example: the single
derived column for `G1` under `total` mode is `[4, 6]`. -/
theorem total_mean_value_check :
    average_peaks w1adata ["G1"] (Average.str "total") PyBool.pfalse
      = Except.ok ⟨[("G1 (all peaks)", [4, 6])],
          ["G1 (all peaks)"], ["G1 (all peaks)"], []⟩ := by
  unfold average_peaks
  rw [List.foldlM_cons, step_total PyBool.pfalse emptyResult (by decide) rfl (by decide) (by decide) (Or.inl rfl)]
  simp only [Bind.bind, Except.bind, List.foldlM_nil, pure, Except.pure]
  simp [addName, emptyResult, dfSet, meanCols, rowSelect, lookupVal, listMean, matchedPeaks,
    peakSel, geneSel, pickVars, pickMat, w1adata, w1ann, PyBool.truthy, allPeaksName]
  norm_num

/-- C2 counterexample: gene `G1` has peaks of two distinct types, but
because `obs` already contains a column named `G1 (promoter peaks)`,
the `peak_type` branch produces only ONE derived column, although the
claim requires exactly one per distinct label (here two). -/
theorem c2_counterexample :
    average_peaks cPromAdata ["G1"] (Average.str "peak_type") PyBool.pfalse
      = Except.ok ⟨[("G1 (distal peaks)", [6, 8])],
          ["G1 (promoter peaks)", "G1 (distal peaks)"],
          ["G1 (promoter peaks)", "G1 (distal peaks)"], []⟩ := by
  unfold average_peaks
  rw [List.foldlM_cons, step_ptype PyBool.pfalse emptyResult (by decide) rfl (by decide) (by decide)]
  simp only [Bind.bind, Except.bind, List.foldlM_nil, pure, Except.pure]
  simp [peakDict, peakSel, geneSel, insertGroup, stepType, addName, emptyResult, dfSet,
    meanCols, rowSelect, lookupVal, listMean, matchedPeaks, pickVars, pickMat, PyBool.truthy,
    typeName, cPromAdata, w1ann]

/-- C2 (amended): for a gene key with a non-empty filtered peak set,
under `peak_type` mode, provided none of the derived names is already
an `obs` column, the resolver partitions the matched peaks by
`peak_type` and produces, for each distinct label in first-encounter
order, exactly one derived column `<key> (<peak_type> peaks)` equal to
the row-wise mean over that label's peak subset. -/
theorem c2_peak_type (adata : AData) (ur : PyBool) (key : String) (ann : List Annot)
    (h1 : ¬(key ∈ adata.obs_names ∨ key ∈ adata.obs_columns))
    (h2 : adata.annot = Option.some ann)
    (h3 : geneSel ann key ≠ [])
    (h4 : matchedPeaks adata ann key ≠ [])
    (h6 : ∀ g ∈ peakDict (peakSel adata ann key), typeName key g.1 ∉ adata.obs_columns) :
    average_peaks adata [key] (Average.str "peak_type") ur
      = Except.ok ⟨(peakDict (peakSel adata ann key)).map (fun g =>
            (typeName key g.1, meanCols (pickVars adata ur) (pickMat adata ur) g.2)),
          (peakDict (peakSel adata ann key)).map (fun g => typeName key g.1),
          (peakDict (peakSel adata ann key)).map (fun g => typeName key g.1), []⟩ := by
  have hnodup : ((peakDict (peakSel adata ann key)).map (fun g => typeName key g.1)).Nodup := by
    have h := (peakDict_keys_nodup (peakSel adata ann key)).map (typeName_inj key)
    simpa [List.map_map, Function.comp] using h
  unfold average_peaks
  rw [List.foldlM_cons, step_ptype ur emptyResult h1 h2 h3 h4]
  rw [foldl_stepType_eq adata ur key (peakDict (peakSel adata ann key)) emptyResult h6
    (by intro g hg q hq; cases hq) hnodup]
  simp [Bind.bind, Except.bind, emptyResult, pure, Except.pure]

/-- C2 witness: gene `G1` with a promoter and a distal peak yields the
two per-type mean columns in first-encounter order. -/
theorem c2_witness :
    average_peaks w1adata ["G1"] (Average.str "peak_type") PyBool.pfalse
      = Except.ok ⟨(peakDict (peakSel w1adata w1ann "G1")).map (fun g =>
            (typeName "G1" g.1,
              meanCols (pickVars w1adata PyBool.pfalse) (pickMat w1adata PyBool.pfalse) g.2)),
          (peakDict (peakSel w1adata w1ann "G1")).map (fun g => typeName "G1" g.1),
          (peakDict (peakSel w1adata w1ann "G1")).map (fun g => typeName "G1" g.1), []⟩ :=
  c2_peak_type w1adata PyBool.pfalse "G1" w1ann
    (by decide) rfl (by decide) (by decide) (by decide)

/-- Concrete value check matching the spec's example: under `peak_type`
mode `G1` yields `G1 (promoter peaks) = [2, 4]` and
`G1 (distal peaks) = [6, 8]`, in first-encounter order. -/
theorem peak_type_value_check :
    average_peaks w1adata ["G1"] (Average.str "peak_type") PyBool.pfalse
      = Except.ok ⟨[("G1 (promoter peaks)", [2, 4]), ("G1 (distal peaks)", [6, 8])],
          ["G1 (promoter peaks)", "G1 (distal peaks)"],
          ["G1 (promoter peaks)", "G1 (distal peaks)"], []⟩ := by
  unfold average_peaks
  rw [List.foldlM_cons, step_ptype PyBool.pfalse emptyResult (by decide) rfl (by decide) (by decide)]
  simp only [Bind.bind, Except.bind, List.foldlM_nil, pure, Except.pure]
  simp [peakDict, peakSel, geneSel, insertGroup, stepType, addName, emptyResult, dfSet,
    meanCols, rowSelect, lookupVal, listMean, matchedPeaks, pickVars, pickMat, PyBool.truthy,
    typeName, w1adata, w1ann]

/-- C3: for a key that is neither an observation id nor an obs column,
resolution raises the annotation-missing `KeyError` (whose message
directs to `add_peak_annotation`) when the peak-annotation table is
absent, and the pandas `KeyError` when the table is present but the key
has no annotation row; the two messages differ, and these two lookup
failures are the only raising conditions of the resolver. -/
theorem c3_lookup_failures (adata : AData) (avg : Average) (ur : PyBool) :
    (∀ key, ¬(key ∈ adata.obs_names ∨ key ∈ adata.obs_columns) →
      (adata.annot = Option.none →
        average_peaks adata [key] avg ur = Except.error (PlotError.noAnnot key)) ∧
      (∀ ann, adata.annot = Option.some ann → geneSel ann key = [] →
        average_peaks adata [key] avg ur = Except.error (PlotError.keyNotFound key))) ∧
    (∀ k k', (PlotError.noAnnot k).message ≠ (PlotError.keyNotFound k').message) ∧
    (∀ keys e, average_peaks adata keys avg ur = Except.error e →
      ∃ key ∈ keys, ¬(key ∈ adata.obs_names ∨ key ∈ adata.obs_columns) ∧
        ((adata.annot = Option.none ∧ e = PlotError.noAnnot key) ∨
         (∃ ann, adata.annot = Option.some ann ∧ geneSel ann key = [] ∧
            e = PlotError.keyNotFound key))) := by
  refine ⟨?single, ?msgs, ?only⟩
  case single =>
    intro key hd
    constructor
    · intro hann
      unfold average_peaks
      rw [List.foldlM_cons, step_noAnnot avg ur emptyResult hd hann]
      simp [Bind.bind, Except.bind]
    · intro ann hann hsel
      unfold average_peaks
      rw [List.foldlM_cons, step_keyNotFound avg ur emptyResult hd hann hsel]
      simp [Bind.bind, Except.bind]
  case msgs =>
    intro k k' h
    have h1 : (PlotError.noAnnot k).message.data.head? = Option.some 'T' := rfl
    have h2 : (PlotError.keyNotFound k').message.data.head? = Option.some 'N' := rfl
    rw [h, h2] at h1
    simp at h1
  case only =>
    intro keys e h
    exact foldlM_error_char keys emptyResult e h

/-- C3 witness: with annotation absent the unknown key `G1` raises the
annotation-missing error; with annotation present the unknown key `G9`
raises the pandas lookup error; the two messages differ. -/
theorem c3_witness :
    average_peaks cNoAnnAdata ["G1"] (Average.str "total") PyBool.pfalse
      = Except.error (PlotError.noAnnot "G1") ∧
    average_peaks w1adata ["G9"] (Average.str "total") PyBool.pfalse
      = Except.error (PlotError.keyNotFound "G9") ∧
    (PlotError.noAnnot "G1").message ≠ (PlotError.keyNotFound "G9").message := by
  refine ⟨?e1, ?e2, ?e3⟩
  case e1 =>
    exact ((c3_lookup_failures cNoAnnAdata (Average.str "total") PyBool.pfalse).1
      "G1" (by decide)).1 rfl
  case e2 =>
    exact ((c3_lookup_failures w1adata (Average.str "total") PyBool.pfalse).1
      "G9" (by decide)).2 w1ann rfl (by decide)
  case e3 =>
    exact (c3_lookup_failures w1adata (Average.str "total") PyBool.pfalse).2.1 "G1" "G9"

/-- C6 counterexample: the keys `a (b` (peak `p1`, type `c`, value 1)
and `a` (peak `p2`, type `b (c`, value 2) both derive the attribute
name `a (b (c peaks)`; resolving the first key alone computes the
column `[1]`, but resolving both keys leaves `[2]` — the second
occurrence of the name RECOMPUTES and overwrites rather than reusing
the already-computed column as the claim states. -/
theorem c6_counterexample :
    average_peaks c6adata ["a (b", "a"] (Average.str "peak_type") PyBool.pfalse
      = Except.ok ⟨[("a (b (c peaks)", [2])],
          ["a (b (c peaks)", "a (b (c peaks)"],
          ["a (b (c peaks)", "a (b (c peaks)"], []⟩ ∧
    average_peaks c6adata ["a (b"] (Average.str "peak_type") PyBool.pfalse
      = Except.ok ⟨[("a (b (c peaks)", [1])],
          ["a (b (c peaks)"], ["a (b (c peaks)"], []⟩ := by
  constructor
  · simp [average_peaks, List.foldlM_cons, step, emptyResult, Bind.bind, Except.bind, pure,
      Except.pure, geneSel, matchedPeaks, peakSel, peakDict, insertGroup, stepType, addName,
      dfSet, meanCols, rowSelect, lookupVal, listMean, pickVars, pickMat, PyBool.truthy,
      typeName, c6adata, c6ann, warnOf]
  · simp [average_peaks, List.foldlM_cons, step, emptyResult, Bind.bind, Except.bind, pure,
      Except.pure, geneSel, matchedPeaks, peakSel, peakDict, insertGroup, stepType, addName,
      dfSet, meanCols, rowSelect, lookupVal, listMean, pickVars, pickMat, PyBool.truthy,
      typeName, c6adata, c6ann, warnOf]

/-- C6 (amended): when the same derived attribute name arises twice
from the SAME gene key (requested twice under `total`/`all` mode, name
not an existing obs column), each occurrence recomputes the identical
column, so the derived table is exactly that of a single request while
the name is listed in `attr_names` and `tmp_names` once per request;
in general a repeated derived name is recomputed and overwritten
(computation is skipped only for names already in `obs.columns`). -/
theorem c6_same_key_once (adata : AData) (avg : Average) (ur : PyBool) (key : String)
    (ann : List Annot)
    (h1 : ¬(key ∈ adata.obs_names ∨ key ∈ adata.obs_columns))
    (h2 : adata.annot = Option.some ann)
    (h3 : geneSel ann key ≠ [])
    (h4 : matchedPeaks adata ann key ≠ [])
    (h5 : avg = Average.str "total" ∨ avg = Average.str "all")
    (h6 : allPeaksName key ∉ adata.obs_columns) :
    average_peaks adata [key, key] avg ur
      = Except.ok ⟨[(allPeaksName key,
            meanCols (pickVars adata ur) (pickMat adata ur) (matchedPeaks adata ann key))],
          [allPeaksName key, allPeaksName key],
          [allPeaksName key, allPeaksName key], []⟩ ∧
    average_peaks adata [key] avg ur
      = Except.ok ⟨[(allPeaksName key,
            meanCols (pickVars adata ur) (pickMat adata ur) (matchedPeaks adata ann key))],
          [allPeaksName key], [allPeaksName key], []⟩ := by
  constructor
  · unfold average_peaks
    rw [List.foldlM_cons, step_total ur emptyResult h1 h2 h3 h4 h5]
    simp only [Bind.bind, Except.bind]
    rw [List.foldlM_cons]
    rw [step_total ur (addName adata ur emptyResult (allPeaksName key) (matchedPeaks adata ann key)) h1 h2 h3 h4 h5]
    simp [addName, h6, emptyResult, dfSet, Bind.bind, Except.bind, pure, Except.pure]
  · unfold average_peaks
    rw [List.foldlM_cons, step_total ur emptyResult h1 h2 h3 h4 h5]
    simp [addName, h6, emptyResult, dfSet, Bind.bind, Except.bind, pure, Except.pure]

/-- C6 witness: requesting `G1` twice under `total` mode yields the
same single derived column as requesting it once, with the name listed
twice. -/
theorem c6_witness :
    average_peaks w1adata ["G1", "G1"] (Average.str "total") PyBool.pfalse
      = Except.ok ⟨[(allPeaksName "G1",
            meanCols (pickVars w1adata PyBool.pfalse) (pickMat w1adata PyBool.pfalse)
              (matchedPeaks w1adata w1ann "G1"))],
          [allPeaksName "G1", allPeaksName "G1"],
          [allPeaksName "G1", allPeaksName "G1"], []⟩ ∧
    average_peaks w1adata ["G1"] (Average.str "total") PyBool.pfalse
      = Except.ok ⟨[(allPeaksName "G1",
            meanCols (pickVars w1adata PyBool.pfalse) (pickMat w1adata PyBool.pfalse)
              (matchedPeaks w1adata w1ann "G1"))],
          [allPeaksName "G1"], [allPeaksName "G1"], []⟩ :=
  c6_same_key_once w1adata (Average.str "total") PyBool.pfalse "G1" w1ann
    (by decide) rfl (by decide) (by decide) (Or.inl rfl) (by decide)


/-- C7 counterexample: with `obs` already containing `G1 (all peaks)`,
resolving the gene key `G1` under `total` mode lists the derived name
in `tmp_names` (the new-names output) although NO column was computed
into the derived table — so `new_names` does not contain exactly the
genuinely newly computed names. -/
theorem c7_counterexample :
    (average_peaks cObsAdata ["G1"] (Average.str "total") PyBool.pfalse).map
        (fun r => r.tmp_names) = Except.ok ["G1 (all peaks)"] ∧
    (average_peaks cObsAdata ["G1"] (Average.str "total") PyBool.pfalse).map
        (fun r => r.x) = Except.ok [] := by
  exact ⟨by decide, by decide⟩

/-- C7 (amended): in every successful resolution, `tmp_names` (the
new-names output) is a sublist of `attr_names` listing every derived
aggregate name as requested — including names that already exist as
`obs` columns, which are NOT recomputed — and a name is a column of the
derived table iff it occurs in `tmp_names` and is not an existing `obs`
column; in particular the derived table never collides with `obs`. -/
theorem c7_new_names (adata : AData) (avg : Average) (ur : PyBool)
    (keys : List String) (r : ResolveResult)
    (h : average_peaks adata keys avg ur = Except.ok r) : NamesInv adata r := by
  unfold average_peaks at h
  have base : NamesInv adata emptyResult := by
    constructor
    · exact List.Sublist.refl []
    · intro n
      simp [emptyResult]
  exact foldlM_step_preserves base (fun s k s' hP hs => step_names hP hs) h

/-- C7 witness: at the obs-collision fixture the invariant instance is
inhabited — the derived name is in `tmp_names`, and it is a column of
the (here empty) derived table iff it is a tmp name not already in
`obs.columns`. -/
theorem c7_witness :
    (["G1 (all peaks)"] : List String).Sublist ["G1 (all peaks)"] ∧
    ("G1 (all peaks)" ∈ (([] : List (String × List Rat)).map Prod.fst) ↔
      ("G1 (all peaks)" ∈ (["G1 (all peaks)"] : List String) ∧
        "G1 (all peaks)" ∉ cObsAdata.obs_columns)) := by
  have hres : average_peaks cObsAdata ["G1"] (Average.str "total") PyBool.pfalse
      = Except.ok ⟨[], ["G1 (all peaks)"], ["G1 (all peaks)"], []⟩ := by decide
  have h := c7_new_names cObsAdata (Average.str "total") PyBool.pfalse ["G1"] _ hres
  exact ⟨h.1, h.2 "G1 (all peaks)"⟩

/-- C9: in every successful resolution, every derived column is the
row-wise mean over a NON-EMPTY list of peak columns of the matrix
aggregation reads from, and has one entry per observation in the
matrix's observation order (given that the raw shadow matrix shares
the observation axis). -/
theorem c9_no_empty_mean (adata : AData) (avg : Average) (ur : PyBool)
    (keys : List String) (r : ResolveResult)
    (hraw : adata.raw.mat.length = adata.mat.length)
    (h : average_peaks adata keys avg ur = Except.ok r) :
    ∀ p ∈ r.x, p.2.length = adata.mat.length ∧ isMeanOfSomePeaks adata ur p.2 := by
  unfold average_peaks at h
  have hmean : ∀ p ∈ r.x, isMeanOfSomePeaks adata ur p.2 := by
    refine foldlM_step_preserves ?base (fun s k s' hP hs => step_mean hP hs) h
    intro p hp
    simp [emptyResult] at hp
  intro p hp
  refine ⟨?len, hmean p hp⟩
  rcases hmean p hp with ⟨peaks, hne, heq⟩
  rw [heq]
  unfold meanCols pickMat
  rw [List.length_map]
  by_cases hur : ur.truthy = true
  · simp [hur, hraw]
  · simp [hur]

/-- C9 witness: the derived column `[4, 6]` for `G1` has one entry per
observation and is the mean over a non-empty peak list. -/
theorem c9_witness :
    (([4, 6] : List Rat).length = w1adata.mat.length ∧
      isMeanOfSomePeaks w1adata PyBool.pfalse [4, 6]) := by
  have hres : average_peaks w1adata ["G1"] (Average.str "total") PyBool.pfalse
      = Except.ok ⟨[("G1 (all peaks)", [4, 6])], ["G1 (all peaks)"], ["G1 (all peaks)"], []⟩ := by
    unfold average_peaks
    rw [List.foldlM_cons, step_total PyBool.pfalse emptyResult (by decide) rfl (by decide) (by decide) (Or.inl rfl)]
    simp only [Bind.bind, Except.bind, List.foldlM_nil, pure, Except.pure]
    simp [addName, emptyResult, dfSet, meanCols, rowSelect, lookupVal, listMean, matchedPeaks,
      peakSel, geneSel, pickVars, pickMat, w1adata, w1ann, PyBool.truthy, allPeaksName]
    norm_num
  exact c9_no_empty_mean w1adata (Average.str "total") PyBool.pfalse ["G1"] _ rfl hres
    ("G1 (all peaks)", [4, 6]) (by simp)

end Muon
